import Mathlib

/-!
Shallow embedding of the observability gateway (`services/gateway/src/index.js`):
the target-registry parser (`parsedTargets`), the bounded in-memory log ring
(`logsBuffer` / `MAX_LOGS` / `addLog`, read out by `GET /obs/logs`), and the
health aggregator (`GET /obs/healthgraph`).

Modelling conventions:
- JavaScript's `String.prototype.split` with a one-character separator is
  embedded as `jsSplit` (structurally recursive over the character list, so it
  evaluates in the kernel), `String.prototype.trim` as `jsTrim`, and the
  falsy-defaulting idiom `x || d` on string-or-absent values as `jsOr`.
- Throwing code is embedded with `Option`: `none` is an uncaught exception
  (the `url.trim()` TypeError when a target entry has no `=`).
- Network I/O of one probe is abstracted by a `ProbeResult` oracle: either the
  resolved 2xx response (carrying the body's optional `status` field and the
  measured latency) or the caught error (axios timeout / connection error /
  non-2xx / malformed body, carrying `err.message` and the elapsed time).
  `aggregate` takes the list of targets paired with each probe's result, as
  `Promise.all` over `parsedTargets.map` correlates results by input index.
- Wall-clock timestamps (`new Date().toISOString()`) are passed in explicitly.
-/

namespace Gateway

/-- JavaScript single-character split over a character list:
`"a,b,".split(",")` = `["a","b",""]`, `"".split(",")` = `[""]`. -/
def splitOnCharList (sep : Char) : List Char → List (List Char)
  | [] => [[]]
  | c :: cs =>
      if c = sep then [] :: splitOnCharList sep cs
      else
        match splitOnCharList sep cs with
        | [] => [[c]]
        | h :: t => (c :: h) :: t

/-- Embedding of `s.split(sep)` for a one-character separator. -/
def jsSplit (sep : Char) (s : String) : List String :=
  (splitOnCharList sep s.toList).map List.asString

/-- Embedding of `s.trim()`: strip leading and trailing whitespace. -/
def jsTrim (s : String) : String :=
  List.asString (((s.toList.dropWhile Char.isWhitespace).reverse.dropWhile
    Char.isWhitespace).reverse)

/-- Embedding of the JavaScript string default idiom `v || d` applied to a
field that may be absent (`none`) or hold a string: an absent or empty (falsy)
string falls back to the default. -/
def jsOr (v : Option String) (d : String) : String :=
  match v with
  | none => d
  | some s => if s = "" then d else s

/-- A parsed registry entry: `{ name: name.trim(), baseUrl: url.trim() }`. -/
structure Target where
  name : String
  baseUrl : String
deriving Repr, DecidableEq

/-- One step of the `parsedTargets` map:
`const [name, url] = pair.split("="); return { name: name.trim(), baseUrl: url.trim() }`.
The array destructuring binds the first two split parts and ignores the rest;
when the split has a single part, `url` is `undefined` and `url.trim()` throws
a TypeError, embedded as `none`. -/
def parsePair (pair : String) : Option Target :=
  match jsSplit '=' pair with
  | name :: url :: _ => some { name := jsTrim name, baseUrl := jsTrim url }
  | _ => none

/-- The comma-split entries of the raw target string after `.filter(Boolean)`,
which drops exactly the empty strings. -/
def entriesOf (raw : String) : List String :=
  (jsSplit ',' raw).filter (fun s => s != "")

/-- Embedding of `Array.prototype.map` with a callback that may throw: the
first exception aborts the whole map. -/
def mapOrThrow (f : α → Option β) : List α → Option (List β)
  | [] => some []
  | x :: xs =>
      match f x, mapOrThrow f xs with
      | some y, some ys => some (y :: ys)
      | _, _ => none

/-- Embedding of the `parsedTargets` computation:
`SERVICE_TARGETS.split(",").filter(Boolean).map(pair => ...)`. -/
def parse (raw : String) : Option (List Target) :=
  mapOrThrow parsePair (entriesOf raw)

/-- A stored log record, as pushed onto `logsBuffer`. -/
structure LogEntry where
  ts : String
  level : String
  service : String
  msg : String
deriving Repr, DecidableEq

/-- The caller-supplied argument of `addLog(entry)`: each field may be absent
(or supplied; JavaScript object fields are optional). -/
structure LogFields where
  level : Option String := none
  service : Option String := none
  msg : Option String := none
deriving Repr, DecidableEq

/-- Ring capacity: `const MAX_LOGS = 200`. -/
def MAX_LOGS : Nat := 200

/-- The record pushed by `addLog`:
`{ ts: new Date().toISOString(), level: entry.level || "info", service: entry.service || "gateway", msg: entry.msg || "" }`. -/
def mkEntry (now : String) (entry : LogFields) : LogEntry :=
  { ts := now
    level := jsOr entry.level "info"
    service := jsOr entry.service "gateway"
    msg := jsOr entry.msg "" }

/-- Embedding of `addLog`: push the stamped record, then
`if (logsBuffer.length > MAX_LOGS) logsBuffer.shift()`. The buffer state is
passed explicitly; `now` is the current wall-clock timestamp. -/
def addLog (now : String) (buf : List LogEntry) (entry : LogFields) : List LogEntry :=
  if MAX_LOGS < (buf ++ [mkEntry now entry]).length then
    (buf ++ [mkEntry now entry]).drop 1
  else
    buf ++ [mkEntry now entry]

/-- A sequence of `addLog` calls, each with its own timestamp, applied in
order to a buffer state. -/
def appendAll (buf : List LogEntry) (calls : List (String × LogFields)) : List LogEntry :=
  calls.foldl (fun b c => addLog c.1 b c.2) buf

/-- Embedding of the `GET /obs/logs` read-out: `[...logsBuffer].reverse()`,
a copied, most-recent-first view of the ring. -/
def snapshot (buf : List LogEntry) : List LogEntry :=
  buf.reverse

/-- The terminal state of one probe's HTTP call, as observed by the handler:
either the awaited 2xx response (with the body's optional `status` field and
the measured `Date.now() - start`), or the caught error (timeout, connection
error, non-2xx status, malformed body) with its `err.message`. -/
inductive ProbeResult where
  | success (bodyStatus : Option String) (latency : Nat)
  | failure (message : String) (latency : Nat)
deriving Repr, DecidableEq

/-- One per-target result object of `GET /obs/healthgraph`. -/
structure HealthOutcome where
  name : String
  url : String
  status : String
  latencyMs : Nat
  error : Option String
  lastCheck : String
deriving Repr, DecidableEq

/-- The body of one probe task: the `try` branch builds the success outcome
with `status: r.data?.status || "unknown"` and logs an info entry; the
`catch` branch builds the `"down"` outcome carrying `err.message` and logs an
error entry. Returns the outcome together with the `addLog` argument. -/
def probeOne (now : String) (svc : Target) (res : ProbeResult) :
    HealthOutcome × LogFields :=
  match res with
  | .success bodyStatus lat =>
      ({ name := svc.name
         url := svc.baseUrl
         status := jsOr bodyStatus "unknown"
         latencyMs := lat
         error := none
         lastCheck := now },
       { level := some "info"
         service := some svc.name
         msg := some ("Healthcheck ok (" ++ toString lat ++ "ms)") })
  | .failure message lat =>
      ({ name := svc.name
         url := svc.baseUrl
         status := "down"
         latencyMs := lat
         error := some message
         lastCheck := now },
       { level := some "error"
         service := some svc.name
         msg := some ("Healthcheck failed (" ++ toString lat ++ "ms): " ++ message) })

/-- Embedding of the `GET /obs/healthgraph` fan-out/fan-in:
`await Promise.all(parsedTargets.map(async svc => ...))`. Each target is
paired with its probe's terminal result; `Promise.all` returns the outcome of
probe `i` at index `i`, so the outcome list is the index-wise map. The second
component collects the `addLog` request issued by each probe, indexed by
target. -/
def aggregate (now : String) (probes : List (Target × ProbeResult)) :
    List HealthOutcome × List LogFields :=
  ((probes.map (fun p => probeOne now p.1 p.2)).map Prod.fst,
   (probes.map (fun p => probeOne now p.1 p.2)).map Prod.snd)

/-! Helper lemmas shared by the claim theorems. -/

theorem parsePair_isSome_iff (pair : String) :
    (parsePair pair).isSome ↔ 2 ≤ (jsSplit '=' pair).length := by
  unfold parsePair
  rcases h : jsSplit '=' pair with _ | ⟨n, _ | ⟨u, rest⟩⟩ <;> simp

theorem mapOrThrow_isSome (f : α → Option β) (l : List α) :
    (mapOrThrow f l).isSome ↔ ∀ x ∈ l, (f x).isSome := by
  induction l with
  | nil => simp [mapOrThrow]
  | cons x xs ih =>
      unfold mapOrThrow
      rcases hfx : f x with _ | y
      · simp [hfx]
      · rcases hxs : mapOrThrow f xs with _ | ys <;>
          simp [hfx, hxs, ← ih]

theorem mapOrThrow_getElem? (f : α → Option β) (l : List α) (ys : List β)
    (h : mapOrThrow f l = some ys) (i : Nat) : ys[i]? = l[i]?.bind f := by
  induction l generalizing ys i with
  | nil =>
      unfold mapOrThrow at h
      cases h
      simp
  | cons x xs ih =>
      unfold mapOrThrow at h
      rcases hfx : f x with _ | y <;> rw [hfx] at h
      · cases h
      · rcases hxs : mapOrThrow f xs with _ | ys' <;> rw [hxs] at h
        · cases h
        · cases h
          cases i with
          | zero => simp [hfx]
          | succ n => simp [ih ys' hxs n]

theorem addLog_length_le (now : String) (buf : List LogEntry) (e : LogFields)
    (h : buf.length ≤ MAX_LOGS) : (addLog now buf e).length ≤ MAX_LOGS := by
  simp only [MAX_LOGS] at h ⊢
  unfold addLog
  simp only [MAX_LOGS]
  split
  · simp
    omega
  · next hle =>
      simp at hle ⊢
      omega

theorem appendAll_length_le (calls : List (String × LogFields))
    (buf : List LogEntry) (h : buf.length ≤ MAX_LOGS) :
    (appendAll buf calls).length ≤ MAX_LOGS := by
  induction calls generalizing buf with
  | nil => simpa [appendAll] using h
  | cons c cs ih =>
      simp only [appendAll, List.foldl_cons]
      exact ih (addLog c.1 buf c.2) (addLog_length_le c.1 buf c.2 h)

theorem addLog_of_lt (now : String) (buf : List LogEntry) (e : LogFields)
    (h : buf.length < MAX_LOGS) :
    addLog now buf e = buf ++ [mkEntry now e] := by
  simp only [MAX_LOGS] at h
  unfold addLog
  rw [if_neg (by simp only [MAX_LOGS]; simp; omega)]

theorem addLog_of_full (now : String) (buf : List LogEntry) (e : LogFields)
    (h : buf.length = MAX_LOGS) :
    addLog now buf e = buf.drop 1 ++ [mkEntry now e] := by
  simp only [MAX_LOGS] at h
  unfold addLog
  rw [if_pos (by simp only [MAX_LOGS]; simp; omega)]
  rw [List.drop_append_of_le_length (by omega)]

theorem appendAll_no_evict (calls : List (String × LogFields))
    (buf : List LogEntry) (h : buf.length + calls.length ≤ MAX_LOGS) :
    appendAll buf calls = buf ++ calls.map (fun c => mkEntry c.1 c.2) := by
  simp only [MAX_LOGS] at h
  induction calls generalizing buf with
  | nil => simp [appendAll]
  | cons c cs ih =>
      simp only [appendAll, List.foldl_cons, List.map_cons]
      rw [addLog_of_lt c.1 buf c.2 (by simp only [MAX_LOGS]; simp at h ⊢; omega)]
      have := ih (buf ++ [mkEntry c.1 c.2]) (by simp at h ⊢; omega)
      simpa [appendAll, List.append_assoc] using this

/-! Claim theorems. -/

/-- Claim C1: every per-target probe failure is contained and converted to
data: the failing target's outcome has status `"down"`, carries the error
message and the elapsed latency, and an `"error"` log request tagged with the
target's name is issued; and no sibling is affected — the outcome and log
request at any index depend only on that index's own target and probe result,
so `aggregate` (a total function) never fails or disturbs the other probes
whatever combination of failures occurs. -/
theorem C1_failure_contained (now m : String) (lat : Nat)
    (probes : List (Target × ProbeResult)) (i : Nat) (t : Target)
    (hp : probes[i]? = some (t, ProbeResult.failure m lat)) :
    (aggregate now probes).1[i]? =
      some { name := t.name, url := t.baseUrl, status := "down",
             latencyMs := lat, error := some m, lastCheck := now } ∧
    (aggregate now probes).2[i]? =
      some { level := some "error", service := some t.name,
             msg := some ("Healthcheck failed (" ++ toString lat ++ "ms): " ++ m) } ∧
    (∀ probes' : List (Target × ProbeResult), ∀ j : Nat,
      probes'[j]? = probes[j]? →
      (aggregate now probes').1[j]? = (aggregate now probes).1[j]? ∧
      (aggregate now probes').2[j]? = (aggregate now probes).2[j]?) := by
  refine ⟨?_, ?_, ?_⟩
  · simp [aggregate, List.getElem?_map, hp, probeOne]
  · simp [aggregate, List.getElem?_map, hp, probeOne]
  · intro probes' j hj
    constructor <;> simp [aggregate, List.getElem?_map, hj]

/-- Witness for C1 at a concrete registry and failure. -/
theorem C1_failure_contained_witness :
    (aggregate "T" [({ name := "a", baseUrl := "u" },
        ProbeResult.failure "boom" 7)]).1[0]? =
      some { name := "a", url := "u", status := "down", latencyMs := 7,
             error := some "boom", lastCheck := "T" } :=
  (C1_failure_contained "T" "boom" 7
    [({ name := "a", baseUrl := "u" }, ProbeResult.failure "boom" 7)] 0
    { name := "a", baseUrl := "u" } (by decide)).1

/-- Claim C2: `aggregate` over N targets returns exactly N outcomes, and the
outcome at each index carries the name and url of the target at the same
index of the registry; since `Promise.all` places probe i's result at index
i, this holds independently of probe completion order. -/
theorem C2_order_preserved (now : String)
    (probes : List (Target × ProbeResult)) :
    (aggregate now probes).1.length = probes.length ∧
    ∀ i : Nat,
      ((aggregate now probes).1[i]?.map (fun o => (o.name, o.url))) =
        (probes[i]?.map (fun p => (p.1.name, p.1.baseUrl))) := by
  constructor
  · simp [aggregate]
  · intro i
    simp only [aggregate, List.getElem?_map]
    rcases hp : probes[i]? with _ | ⟨t, r⟩
    · simp
    · cases r <;> simp [probeOne]

/-- Claim C3: starting from the empty buffer, no sequence of `addLog` calls
ever leaves more than `MAX_LOGS` entries in the ring; an append to a full
buffer evicts exactly the oldest entry and keeps all others in insertion
order, and an append to a non-full buffer evicts nothing. -/
theorem C3_ring_bounded :
    (∀ calls : List (String × LogFields),
      (appendAll [] calls).length ≤ MAX_LOGS) ∧
    (∀ (now : String) (buf : List LogEntry) (e : LogFields),
      buf.length = MAX_LOGS →
      addLog now buf e = buf.drop 1 ++ [mkEntry now e]) ∧
    (∀ (now : String) (buf : List LogEntry) (e : LogFields),
      buf.length < MAX_LOGS →
      addLog now buf e = buf ++ [mkEntry now e]) :=
  ⟨fun calls => appendAll_length_le calls [] (by simp),
   addLog_of_full, addLog_of_lt⟩

/-- Witness for C3 at a concrete full buffer of 200 entries. -/
theorem C3_ring_bounded_witness :
    addLog "t" (List.replicate MAX_LOGS (mkEntry "s" {})) {} =
      (List.replicate MAX_LOGS (mkEntry "s" {})).drop 1 ++ [mkEntry "t" {}] :=
  C3_ring_bounded.2.1 "t" (List.replicate MAX_LOGS (mkEntry "s" {})) {}
    (by simp)

/-- Claim C4, counterexample: the claim says `parse` fails when an entry
yields an empty name after trimming, but the code performs no such check —
on the raw string `"=http://x"` it succeeds and returns a target whose name
is the empty string. -/
theorem C4_counterexample :
    parse "=http://x" = some [{ name := "", baseUrl := "http://x" }] ∧
    (parse "=http://x").isSome = true := by
  constructor <;> decide

/-- Claim C4 as amended: `parse` fails exactly when some nonempty entry has
no `=` separator (its `=`-split has a single part; the failure is an uncaught
TypeError on `url.trim()`, not a structured ConfigError); an entry whose name
or URL is empty after trimming is NOT rejected; each well-formed entry is
parsed to its first two `=`-split parts with whitespace trimmed from both,
and a successful parse maps the i-th nonempty entry to the i-th target. -/
theorem C4_parse_behavior (raw : String) :
    ((parse raw).isSome ↔
      ∀ p ∈ entriesOf raw, 2 ≤ (jsSplit '=' p).length) ∧
    (∀ (pair n u : String) (rest : List String),
      jsSplit '=' pair = n :: u :: rest →
      parsePair pair = some { name := jsTrim n, baseUrl := jsTrim u }) ∧
    (∀ ts : List Target, parse raw = some ts →
      ∀ i : Nat, ts[i]? = ((entriesOf raw)[i]?.bind parsePair)) := by
  refine ⟨?_, ?_, ?_⟩
  · rw [parse, mapOrThrow_isSome]
    constructor
    · intro h p hp
      rw [← parsePair_isSome_iff]
      exact h p hp
    · intro h p hp
      rw [parsePair_isSome_iff]
      exact h p hp
  · intro pair n u rest h
    unfold parsePair
    rw [h]
  · intro ts hts i
    exact mapOrThrow_getElem? parsePair (entriesOf raw) ts hts i

/-- Witness for C4's amended theorem at a concrete entry with two `=`. -/
theorem C4_parse_behavior_witness :
    parsePair " a = http://x = y" = some { name := "a", baseUrl := "http://x" } := by
  rw [(C4_parse_behavior "").2.1 " a = http://x = y" " a " " http://x " [" y"]
    (by decide)]
  decide

/-- Claim C5: after K appends to the empty ring with K at most the capacity,
the `GET /obs/logs` snapshot holds exactly K entries, in reverse-insertion
(most-recent-first) order. The read-out `[...logsBuffer].reverse()` copies
the buffer before reversing; in this pure embedding the returned list is a
value independent of any later buffer state by construction. -/
theorem C5_snapshot_recent_first (calls : List (String × LogFields))
    (h : calls.length ≤ MAX_LOGS) :
    snapshot (appendAll [] calls) =
      (calls.map (fun c => mkEntry c.1 c.2)).reverse ∧
    (snapshot (appendAll [] calls)).length = calls.length := by
  have he := appendAll_no_evict calls [] (by simpa using h)
  constructor
  · rw [snapshot, he]
    simp
  · rw [snapshot, he]
    simp

/-- Witness for C5: appending x then y yields the snapshot `[y, x]`. -/
theorem C5_snapshot_recent_first_witness :
    snapshot (appendAll []
        [("t1", { msg := some "x" }), ("t2", { msg := some "y" })]) =
      [mkEntry "t2" { msg := some "y" }, mkEntry "t1" { msg := some "x" }] :=
  ((C5_snapshot_recent_first
      [("t1", { msg := some "x" }), ("t2", { msg := some "y" })]
      (by decide)).1).trans (by decide)

/-- Claim C6, counterexample: the claim says a successful probe's status is
the body's `status` field value, normalized only when the field is absent;
but for a body whose `status` field is present and equal to the empty string
the code's `r.data?.status || "unknown"` yields `"unknown"`, not the field's
value `""`. -/
theorem C6_counterexample :
    ((aggregate "T" [({ name := "a", baseUrl := "u" },
        ProbeResult.success (some "") 5)]).1.map (fun o => o.status)) =
      ["unknown"] ∧ ("unknown" : String) ≠ "" := by
  constructor <;> decide

/-- Claim C6 as amended: for a successful probe, the outcome's status is the
body's `status` field passed through when it is a non-empty string, and
defaults to `"unknown"` when the field is absent or empty (JavaScript
falsy); `latencyMs` is the measured duration; and the probe issues one
`"info"` log request tagged with the target's name. -/
theorem C6_success_outcome (now : String)
    (probes : List (Target × ProbeResult)) (i : Nat) (t : Target)
    (bodyStatus : Option String) (lat : Nat)
    (hp : probes[i]? = some (t, ProbeResult.success bodyStatus lat)) :
    (aggregate now probes).1[i]? =
      some { name := t.name, url := t.baseUrl,
             status := jsOr bodyStatus "unknown", latencyMs := lat,
             error := none, lastCheck := now } ∧
    (∀ s : String, s ≠ "" → bodyStatus = some s →
      jsOr bodyStatus "unknown" = s) ∧
    ((bodyStatus = none ∨ bodyStatus = some "") →
      jsOr bodyStatus "unknown" = "unknown") ∧
    (aggregate now probes).2[i]? =
      some { level := some "info", service := some t.name,
             msg := some ("Healthcheck ok (" ++ toString lat ++ "ms)") } := by
  refine ⟨?_, ?_, ?_, ?_⟩
  · simp [aggregate, List.getElem?_map, hp, probeOne]
  · intro s hs hbs
    subst hbs
    simp [jsOr, hs]
  · intro hbs
    rcases hbs with hbs | hbs <;> subst hbs <;> simp [jsOr]
  · simp [aggregate, List.getElem?_map, hp, probeOne]

/-- Witness for C6's amended theorem at a concrete healthy probe. -/
theorem C6_success_outcome_witness :
    (aggregate "T" [({ name := "a", baseUrl := "u" },
        ProbeResult.success (some "ok") 12)]).1[0]? =
      some { name := "a", url := "u", status := jsOr (some "ok") "unknown",
             latencyMs := 12, error := none, lastCheck := "T" } :=
  (C6_success_outcome "T"
    [({ name := "a", baseUrl := "u" }, ProbeResult.success (some "ok") 12)]
    0 { name := "a", baseUrl := "u" } (some "ok") 12 (by decide)).1

/-- Claim C7: `addLog` is a total function (it never fails, whatever fields
are supplied or omitted), it always pushes the stamped record at the tail of
the ring, the stored timestamp is the current time, and an omitted `level`,
`service` or `msg` field defaults to `"info"`, `"gateway"` and `""`
respectively. -/
theorem C7_append_defaults (now : String) (buf : List LogEntry)
    (e : LogFields) :
    (addLog now buf e).getLast? = some (mkEntry now e) ∧
    (mkEntry now e).ts = now ∧
    (e.level = none → (mkEntry now e).level = "info") ∧
    (e.service = none → (mkEntry now e).service = "gateway") ∧
    (e.msg = none → (mkEntry now e).msg = "") := by
  refine ⟨?_, rfl, ?_, ?_, ?_⟩
  · unfold addLog
    split
    · next hgt =>
        rw [List.drop_append_of_le_length (by simp [MAX_LOGS] at hgt; omega)]
        simp
    · simp
  · intro h
    simp [mkEntry, h, jsOr]
  · intro h
    simp [mkEntry, h, jsOr]
  · intro h
    simp [mkEntry, h, jsOr]

/-- Witness for C7: a concrete append with level and service omitted. -/
theorem C7_append_defaults_witness :
    (addLog "t" [] { msg := some "m" }).getLast? =
      some (mkEntry "t" { msg := some "m" }) ∧
    (mkEntry "t" ({ msg := some "m" } : LogFields)).level = "info" ∧
    (mkEntry "t" ({ msg := some "m" } : LogFields)).service = "gateway" :=
  ⟨(C7_append_defaults "t" [] { msg := some "m" }).1,
   (C7_append_defaults "t" [] { msg := some "m" }).2.2.1 rfl,
   (C7_append_defaults "t" [] { msg := some "m" }).2.2.2.1 rfl⟩

/-- Claim C8: one aggregation over N targets issues exactly N `addLog`
requests — one per target, at the target's index — whose `service` field is
that target's name and whose `level` is `"info"` for a successful probe and
`"error"` for a failed one; besides these log requests and the returned
outcome list, `aggregate` touches no other state (it is a pure function of
the registry and the probe results). -/
theorem C8_one_log_per_target (now : String)
    (probes : List (Target × ProbeResult)) :
    (aggregate now probes).2.length = probes.length ∧
    ∀ i : Nat,
      ((aggregate now probes).2[i]?.map (fun e => (e.service, e.level))) =
        (probes[i]?.map (fun p => (some p.1.name,
          some (match p.2 with
                | ProbeResult.success _ _ => "info"
                | ProbeResult.failure _ _ => "error")))) := by
  constructor
  · simp [aggregate]
  · intro i
    simp only [aggregate, List.getElem?_map]
    rcases hp : probes[i]? with _ | ⟨t, r⟩
    · simp
    · cases r <;> simp [probeOne]

/-- Claim C9: `.filter(Boolean)` drops exactly the empty comma-split entries
before parsing, so an empty entry (trailing or doubled comma) yields no
target and no error: no empty string survives into the parsed entry list,
two raw strings with the same nonempty entries parse identically, and the
concrete doubled-and-trailing-comma input parses like its plain form. -/
theorem C9_empty_entries_skipped :
    (∀ raw : String, "" ∉ entriesOf raw) ∧
    (∀ r₁ r₂ : String, entriesOf r₁ = entriesOf r₂ → parse r₁ = parse r₂) ∧
    parse "a=x,,b=y," =
      some [{ name := "a", baseUrl := "x" }, { name := "b", baseUrl := "y" }] ∧
    parse "a=x,,b=y," = parse "a=x,b=y" := by
  refine ⟨?_, ?_, by decide, by decide⟩
  · intro raw hmem
    simp [entriesOf, List.mem_filter] at hmem
  · intro r₁ r₂ h
    unfold parse
    rw [h]

/-- Witness for C9: two raws with the same nonempty entries parse alike. -/
theorem C9_empty_entries_skipped_witness :
    parse "a=x,," = parse "a=x" :=
  C9_empty_entries_skipped.2.1 "a=x,," "a=x" (by decide)

/-- Claim C10: when an entry splits on `=` into three or more parts (its URL
portion contains a further `=`), the parsed target keeps the first part as
the name and only the second part — the text between the first and the
second `=` — as the baseUrl, silently dropping every later part. -/
theorem C10_url_between_separators (pair n u : String) (rest : List String)
    (h : jsSplit '=' pair = n :: u :: rest) :
    parsePair pair = some { name := jsTrim n, baseUrl := jsTrim u } := by
  unfold parsePair
  rw [h]

/-- Witness for C10: everything after the second `=` is dropped. -/
theorem C10_url_between_separators_witness :
    parsePair "a=http://x=extra" = some { name := "a", baseUrl := "http://x" } := by
  rw [C10_url_between_separators "a=http://x=extra" "a" "http://x" ["extra"]
    (by decide)]
  decide

end Gateway
